import Mathlib

set_option maxRecDepth 20000

/-!
Verification of the earthquake dashboard core pipeline
(`src/Component/EarthquakeDashboard.js`).

The development shallowly embeds the pure core of the dashboard:
the region text classifier `isEthiopiaLocation`, the per-cycle novelty
tracking of `fetchEarthquakes`, the record filter, and the CSV / KML / KMZ
serializers.  JavaScript numbers are modelled as rationals, epoch
milliseconds as integers, nullable fields as `Option`, and JS `Set`s of id
strings as `Finset String`.  Environment-dependent string conversions
(`Date.prototype.toLocaleString`, `Date.prototype.toISOString`, template
rendering of floating point numbers, `Date` parsing of the date-input
strings) are abstracted as explicit function parameters bundled in
`JsFormat`.
-/

/-! ## Generic string machinery (JS `String.prototype.includes` / `split`) -/

/-- Substring test on character lists: JS `hay.includes(pat)`. -/
def containsSub : List Char → List Char → Bool
  | [], pat => pat.isEmpty
  | c :: t, pat => pat.isPrefixOf (c :: t) || containsSub t pat

/-- Number of (possibly overlapping) occurrence positions of `pat` in `hay`. -/
def countSub : List Char → List Char → Nat
  | [], _ => 0
  | c :: t, pat => (if pat.isPrefixOf (c :: t) then 1 else 0) + countSub t pat

/-- The suffix of `hay` after the first occurrence of `pat`, if any. -/
def dropAfterFirst : List Char → List Char → Option (List Char)
  | [], pat => if pat.isPrefixOf ([] : List Char) then some [] else none
  | c :: t, pat =>
    if pat.isPrefixOf (c :: t) then some ((c :: t).drop pat.length)
    else dropAfterFirst t pat

/-- The part of `s` strictly before the first occurrence of `pat`
(all of `s` if `pat` does not occur). -/
def takeBefore : List Char → List Char → List Char
  | [], _ => []
  | c :: t, pat => if pat.isPrefixOf (c :: t) then [] else c :: takeBefore t pat

/-- JS `hay.split(pat)[1]`: the segment between the first and second
occurrence of `pat` (only used when `hay.includes(pat)`). -/
def splitSecondPart (hay pat : List Char) : List Char :=
  match dropAfterFirst hay pat with
  | some rest => takeBefore rest pat
  | none => []

theorem containsSub_isInfix {hay pat : List Char} :
    containsSub hay pat = true ↔ pat <:+: hay := by
  induction hay with
  | nil =>
    simp [containsSub, List.isEmpty_iff]
  | cons c t ih =>
    simp only [containsSub, Bool.or_eq_true, List.isPrefixOf_iff_prefix, ih,
      List.infix_cons_iff]

theorem dropAfterFirst_suffix {hay pat rest : List Char}
    (h : dropAfterFirst hay pat = some rest) : rest <:+ hay := by
  induction hay with
  | nil =>
    simp only [dropAfterFirst] at h
    split at h
    · cases h; exact List.suffix_rfl
    · cases h
  | cons c t ih =>
    simp only [dropAfterFirst] at h
    split at h
    · cases h
      exact List.drop_suffix _ _
    · exact (ih h).trans (List.suffix_cons c t)

theorem takeBefore_isPrefix (s pat : List Char) : takeBefore s pat <+: s := by
  induction s with
  | nil => simp [takeBefore]
  | cons c t ih =>
    simp only [takeBefore]
    split
    · exact List.nil_prefix
    · exact List.cons_prefix_cons.mpr ⟨rfl, ih⟩

theorem splitSecondPart_isInfix (hay pat : List Char) :
    splitSecondPart hay pat <:+: hay := by
  unfold splitSecondPart
  cases h : dropAfterFirst hay pat with
  | none => exact List.nil_infix
  | some rest =>
    exact (takeBefore_isPrefix rest pat).isInfix.trans (dropAfterFirst_suffix h).isInfix

/-! ## GeoClassifier: `isEthiopiaLocation` -/

/-- Lowercased character list of a string: JS `place.toLowerCase()`. -/
def lowerStr (s : String) : List Char := s.data.map Char.toLower

/-- Neighboring countries excluded by the classifier. -/
def excludeCountries : List String :=
  ["yemen", "eritrea", "sudan", "south sudan", "kenya", "somalia", "djibouti",
   "egypt", "libya", "chad", "congo", "uganda", "tanzania", "rwanda", "burundi"]

/-- Inclusion keywords (country, regions, cities, zones, geographic features). -/
def ethiopiaKeywords : List String :=
  ["ethiopia", "ethiopian", "abyssinia", "abyssinian",
   "addis ababa", "afar", "amhara", "oromia", "tigray", "somali", "gambela",
   "harari", "sidama", "snnpr", "dire dawa", "benishangul", "gumuz",
   "bahir dar", "mekelle", "gondar", "jimma", "jijiga", "dessie", "hawassa",
   "harar", "debre berhan", "arba minch", "shashamane", "nekemte", "assosa", "semera",
   "gojjam", "wollo", "gonder", "wolayita", "gurage", "hadiya", "kembata",
   "silte", "bale", "arsi", "hararghe", "borena", "guji", "illubabor", "wollega",
   "welega", "gamo", "gofa", "keffa", "sheka", "bench", "dawuro",
   "rift valley", "awash", "lake tana", "blue nile", "omo river", "abaya",
   "chamo", "ziway", "langano", "shala", "awasa", "tana", "tsana"]

/-- The region classifier.  Mirrors the source: empty/absent input is
rejected, then an exclusion pass over neighboring-country keywords (ignored
when the text mentions ethiopia), then a plain inclusion pass, then the
`"of "` pass re-running the inclusion keywords on `split('of ')[1]`. -/
def isEthiopiaLocation (place : String) : Bool :=
  if place = "" then false
  else
    let placeLower := lowerStr place
    if excludeCountries.any
        (fun c => containsSub placeLower c.data &&
          !(containsSub placeLower ("ethiopia".data))) then false
    else if ethiopiaKeywords.any (fun k => containsSub placeLower k.data) then true
    else if containsSub placeLower ("of ".data) then
      ethiopiaKeywords.any
        (fun k => containsSub (splitSecondPart placeLower ("of ".data)) k.data)
    else false

theorem containsSub_mono {s t pat : List Char} (hst : s <:+: t)
    (h : containsSub s pat = true) : containsSub t pat = true :=
  containsSub_isInfix.mpr ((containsSub_isInfix.mp h).trans hst)

theorem dropAfterFirst_getD_suffix (hay pat : List Char) :
    (dropAfterFirst hay pat).getD [] <:+ hay := by
  cases h : dropAfterFirst hay pat with
  | none => exact List.nil_suffix
  | some rest => exact dropAfterFirst_suffix h

/-- C3 (counterexample): contrary to the claim, the classifier rejects
"52 km NNE of Mekele": the keyword list spells the city "mekelle", and the
"of " pass only re-checks the same keywords on a substring. -/
theorem C3_counterexample : isEthiopiaLocation "52 km NNE of Mekele" = false := by
  decide

/-- C3 (amended): the classifier accepts "Addis Ababa, Ethiopia", rejects
"Red Sea, Yemen", rejects "52 km NNE of Mekele" (single-l spelling is not
in the keyword list), accepts "52 km NNE of Mekelle" (via the plain
inclusion pass), rejects "Khartoum, Sudan" and rejects the empty string. -/
theorem C3_classifier_evaluations :
    isEthiopiaLocation "Addis Ababa, Ethiopia" = true ∧
    isEthiopiaLocation "Red Sea, Yemen" = false ∧
    isEthiopiaLocation "52 km NNE of Mekele" = false ∧
    isEthiopiaLocation "52 km NNE of Mekelle" = true ∧
    isEthiopiaLocation "Khartoum, Sudan" = false ∧
    isEthiopiaLocation "" = false := by
  refine ⟨by decide, by decide, by decide, by decide, by decide, by decide⟩

/-- C4: if the lowercased place contains some neighboring-country keyword
and does not contain "ethiopia", the classifier returns false, no matter
which inclusion keywords the text contains. -/
theorem C4_exclusion_precedence (place : String) (c : String)
    (hc : c ∈ excludeCountries)
    (hcon : containsSub (lowerStr place) c.data = true)
    (heth : containsSub (lowerStr place) ("ethiopia".data) = false) :
    isEthiopiaLocation place = false := by
  have hcne : c.data ≠ [] := by fin_cases hc <;> decide
  by_cases hp : place = ""
  · subst hp
    rw [show lowerStr "" = [] from rfl] at hcon
    simp only [containsSub, List.isEmpty_iff] at hcon
    exact absurd hcon hcne
  · have hany : excludeCountries.any
        (fun c => containsSub (lowerStr place) c.data &&
          !(containsSub (lowerStr place) ("ethiopia".data))) = true := by
      rw [List.any_eq_true]
      exact ⟨c, hc, by rw [hcon, heth]; rfl⟩
    unfold isEthiopiaLocation
    rw [if_neg hp]
    simp only [hany, if_true]

theorem C4_exclusion_precedence_witness :
    ("kenya" ∈ excludeCountries ∧
     containsSub (lowerStr "Nairobi, Kenya") ("kenya".data) = true ∧
     containsSub (lowerStr "Nairobi, Kenya") ("ethiopia".data) = false) ∧
    isEthiopiaLocation "Nairobi, Kenya" = false :=
  ⟨⟨by decide, by decide, by decide⟩,
    C4_exclusion_precedence "Nairobi, Kenya" "kenya" (by decide) (by decide) (by decide)⟩

/-- C5: for a place not decided by the exclusion pass nor by the plain
inclusion pass, if the lowercased text contains "of " then the classifier
returns true exactly when the substring following the first "of " contains
an inclusion keyword (both sides are necessarily false there, since any
keyword inside a substring would already occur in the full text), and
otherwise the classifier returns false. -/
theorem C5_directional_pass (place : String)
    (hex : excludeCountries.any
        (fun c => containsSub (lowerStr place) c.data &&
          !(containsSub (lowerStr place) ("ethiopia".data))) = false)
    (hinc : ethiopiaKeywords.any
        (fun k => containsSub (lowerStr place) k.data) = false) :
    (containsSub (lowerStr place) ("of ".data) = true →
      (isEthiopiaLocation place = true ↔
        ethiopiaKeywords.any (fun k =>
          containsSub ((dropAfterFirst (lowerStr place) ("of ".data)).getD [])
            k.data) = true))
    ∧ (containsSub (lowerStr place) ("of ".data) = false →
        isEthiopiaLocation place = false) := by
  have hsub : ∀ sub : List Char, sub <:+: lowerStr place →
      ethiopiaKeywords.any (fun k => containsSub sub k.data) = false := by
    intro sub hs
    rw [List.any_eq_false]
    intro k hk
    rw [List.any_eq_false] at hinc
    intro hcon
    exact hinc k hk (containsSub_mono hs hcon)
  have hloc : isEthiopiaLocation place = false := by
    unfold isEthiopiaLocation
    by_cases hp : place = ""
    · rw [if_pos hp]
    · rw [if_neg hp]
      simp only [hex, hinc, if_false, Bool.false_eq_true]
      split
      · exact hsub _ (splitSecondPart_isInfix _ _)
      · rfl
  refine ⟨fun _ => ?_, fun _ => hloc⟩
  rw [hloc, hsub _ ((dropAfterFirst_getD_suffix _ _).isInfix)]

theorem C5_directional_pass_witness :
    (excludeCountries.any
        (fun c => containsSub (lowerStr "52 km NNE of Mekele") c.data &&
          !(containsSub (lowerStr "52 km NNE of Mekele") ("ethiopia".data))) = false ∧
     ethiopiaKeywords.any
        (fun k => containsSub (lowerStr "52 km NNE of Mekele") k.data) = false) ∧
    ((containsSub (lowerStr "52 km NNE of Mekele") ("of ".data) = true →
      (isEthiopiaLocation "52 km NNE of Mekele" = true ↔
        ethiopiaKeywords.any (fun k =>
          containsSub
            ((dropAfterFirst (lowerStr "52 km NNE of Mekele") ("of ".data)).getD [])
            k.data) = true))
    ∧ (containsSub (lowerStr "52 km NNE of Mekele") ("of ".data) = false →
        isEthiopiaLocation "52 km NNE of Mekele" = false)) :=
  ⟨⟨by decide, by decide⟩,
    C5_directional_pass "52 km NNE of Mekele" (by decide) (by decide)⟩

/-! ## Data model

GeoJSON-shaped feature objects as the dashboard sees them.  Every field a
feature may lack (or hold JSON `null` in) is an `Option`; a coordinate
entry that is JSON `null` is `none`. -/

/-- `feature.geometry`. -/
structure Geometry where
  coordinates : Option (List (Option ℚ))
deriving DecidableEq

/-- `feature.properties`. -/
structure Props where
  time : Option ℤ
  mag : Option ℚ
  place : Option String
  url : Option String
deriving DecidableEq

/-- A feature object of the feed's FeatureCollection. -/
structure Feature where
  id : Option String
  geometry : Option Geometry
  properties : Option Props
deriving DecidableEq

/-- JS `opt || dflt` for strings: the default replaces both an absent and
an empty (falsy) value. -/
def jsOr (s : Option String) (dflt : String) : String :=
  match s with
  | some v => if v = "" then dflt else v
  | none => dflt

/-- `f.properties?.time` -/
def propsTime (f : Feature) : Option ℤ := f.properties.bind Props.time

/-- `f.properties?.mag` -/
def propsMag (f : Feature) : Option ℚ := f.properties.bind Props.mag

/-- `f.properties?.place` -/
def propsPlace (f : Feature) : Option String := f.properties.bind Props.place

/-- `f.properties?.url` -/
def propsUrl (f : Feature) : Option String := f.properties.bind Props.url

/-- JS `t > bound` for a possibly absent time: an absent time (`undefined`)
compares false. -/
def timeAfter (t : Option ℤ) (bound : ℤ) : Bool :=
  match t with
  | some v => bound < v
  | none => false

/-- Membership of `f.id` in a set of id strings (an absent id is not a
member of a set of strings). -/
def idMem (i : Option String) (s : Finset String) : Bool :=
  match i with
  | some v => decide (v ∈ s)
  | none => false

/-- The ingestion validation of `fetchEarthquakes`:
`f && f.geometry && f.geometry.coordinates && f.geometry.coordinates.length === 3
&& f.properties && f.properties.time && f.id && isEthiopiaLocation(f.properties.place)`.
JS truthiness: a time of `0` and an empty id are rejected, an absent place
is rejected by the classifier's own `!place` check. -/
def isValidFeature (f? : Option Feature) : Bool :=
  match f? with
  | none => false
  | some f =>
    (match f.geometry with
     | none => false
     | some g =>
       match g.coordinates with
       | none => false
       | some cs => cs.length == 3) &&
    (match f.properties with
     | none => false
     | some p =>
       (match p.time with
        | none => false
        | some t => t != 0) &&
       (match p.place with
        | none => false
        | some pl => isEthiopiaLocation pl)) &&
    (match f.id with
     | none => false
     | some i => i != "")

/-! ## NoveltyTracker -/

/-- The two id sets `fetchEarthquakes` keeps across cycles. -/
structure NoveltyState where
  seenLastCycle : Finset String
  announced : Finset String
deriving DecidableEq

/-- One novelty-tracking transition of `fetchEarthquakes`, applied to the
validated records of a cycle: candidates are records whose id is neither in
`seenLastCycle` (`previousEarthquakeIds`) nor in `announced`
(`announcedEarthquakeIds`) and whose time is within the last hour; the
candidate ids are unioned into `announced` (only when there are any, as in
the source), and `seenLastCycle` is replaced by the current id set.
Returns the candidate list (the alerts of the cycle) and the new state. -/
def noveltyUpdate (st : NoveltyState) (records : List Feature) (now : ℤ) :
    List Feature × NoveltyState :=
  let currentIds : Finset String := (records.filterMap Feature.id).toFinset
  let oneHourAgo : ℤ := now - 60 * 60 * 1000
  let newEarthquakes := records.filter (fun f =>
    !(idMem f.id st.seenLastCycle) && !(idMem f.id st.announced) &&
      timeAfter (propsTime f) oneHourAgo)
  let announced' :=
    if newEarthquakes.length > 0 then
      st.announced ∪ (newEarthquakes.filterMap Feature.id).toFinset
    else st.announced
  (newEarthquakes, ⟨currentIds, announced'⟩)

/-- A sequence of novelty-tracking cycles: returns the final state and the
per-cycle novel-record lists. -/
def runCycles (st : NoveltyState) :
    List (List Feature × ℤ) → NoveltyState × List (List Feature)
  | [] => (st, [])
  | (records, now) :: rest =>
    let step := noveltyUpdate st records now
    let tail := runCycles step.2 rest
    (tail.1, step.1 :: tail.2)

theorem noveltyUpdate_announced_mono (st : NoveltyState) (records : List Feature)
    (now : ℤ) : st.announced ⊆ (noveltyUpdate st records now).2.announced := by
  unfold noveltyUpdate
  dsimp only
  split
  · exact Finset.subset_union_left
  · exact Finset.Subset.refl _

theorem noveltyUpdate_novel_not_announced {st : NoveltyState} {records : List Feature}
    {now : ℤ} {r : Feature} (hr : r ∈ (noveltyUpdate st records now).1) :
    idMem r.id st.announced = false := by
  unfold noveltyUpdate at hr
  dsimp only at hr
  rw [List.mem_filter] at hr
  have h := hr.2
  simp only [Bool.and_eq_true, Bool.not_eq_true'] at h
  exact h.1.2

/-- C1 novelty-state transition: from `seenLastCycle = {A,B,C}`,
`announced = {}`, an update with records of ids `{A,B,D}` where only D's
time is within the last hour yields `novel = [D]`, puts D into `announced`,
replaces `seenLastCycle` by `{A,B,D}`, and a second update with the same
records (at any instant) yields no novel records. -/
theorem C1_novelty_transition
    (A B C D : String) (rA rB rD : Feature) (now now2 : ℤ)
    (hAB : A ≠ B) (hAC : A ≠ C) (hAD : A ≠ D)
    (hBC : B ≠ C) (hBD : B ≠ D) (hCD : C ≠ D)
    (hidA : rA.id = some A) (hidB : rB.id = some B) (hidD : rD.id = some D)
    (htD : timeAfter (propsTime rD) (now - 60 * 60 * 1000) = true)
    (htA : timeAfter (propsTime rA) (now - 60 * 60 * 1000) = false)
    (htB : timeAfter (propsTime rB) (now - 60 * 60 * 1000) = false) :
    (noveltyUpdate ⟨{A, B, C}, ∅⟩ [rA, rB, rD] now).1 = [rD] ∧
    D ∈ (noveltyUpdate ⟨{A, B, C}, ∅⟩ [rA, rB, rD] now).2.announced ∧
    (noveltyUpdate ⟨{A, B, C}, ∅⟩ [rA, rB, rD] now).2.seenLastCycle = {A, B, D} ∧
    (noveltyUpdate (noveltyUpdate ⟨{A, B, C}, ∅⟩ [rA, rB, rD] now).2
        [rA, rB, rD] now2).1 = [] := by
  have hmemA : A ∈ ({A, B, C} : Finset String) := by simp
  have hmemB : B ∈ ({A, B, C} : Finset String) := by simp
  have hDnot : D ∉ ({A, B, C} : Finset String) := by
    simp only [Finset.mem_insert, Finset.mem_singleton]
    rintro (h | h | h)
    exacts [hAD h.symm, hBD h.symm, hCD h.symm]
  have hDempty : D ∉ (∅ : Finset String) := Finset.not_mem_empty D
  have hstep : noveltyUpdate ⟨{A, B, C}, ∅⟩ [rA, rB, rD] now =
      ([rD], ⟨{A, B, D}, {D}⟩) := by
    unfold noveltyUpdate
    simp only [List.filter_cons, List.filter_nil, idMem, hidA, hidB, hidD,
      htA, htB, htD, decide_eq_true hmemA, decide_eq_true hmemB,
      decide_eq_false hDnot, decide_eq_false hDempty,
      Bool.not_true, Bool.not_false, Bool.false_and, Bool.true_and,
      Bool.and_false, Bool.and_true, if_true, if_false,
      List.filterMap_cons, List.filterMap_nil]
    simp [hidA, hidB, hidD]
  refine ⟨by rw [hstep], by rw [hstep]; simp, by rw [hstep], ?_⟩
  rw [hstep]
  have hA2 : A ∈ ({A, B, D} : Finset String) := by simp
  have hB2 : B ∈ ({A, B, D} : Finset String) := by simp
  have hD2 : D ∈ ({A, B, D} : Finset String) := by simp
  unfold noveltyUpdate
  simp only [List.filter_cons, List.filter_nil, idMem, hidA, hidB, hidD,
    decide_eq_true hA2, decide_eq_true hB2, decide_eq_true hD2,
    Bool.not_true, Bool.false_and]
  simp

theorem C1_novelty_transition_witness :
    (("a" : String) ≠ "b" ∧ ("a" : String) ≠ "c" ∧ ("a" : String) ≠ "d" ∧
     ("b" : String) ≠ "c" ∧ ("b" : String) ≠ "d" ∧ ("c" : String) ≠ "d" ∧
     (⟨some "a", none, some ⟨some 0, none, none, none⟩⟩ : Feature).id = some "a" ∧
     (⟨some "b", none, some ⟨some 0, none, none, none⟩⟩ : Feature).id = some "b" ∧
     (⟨some "d", none, some ⟨some 7199000, none, none, none⟩⟩ : Feature).id = some "d" ∧
     timeAfter (propsTime ⟨some "d", none, some ⟨some 7199000, none, none, none⟩⟩)
       ((7200000 : ℤ) - 60 * 60 * 1000) = true ∧
     timeAfter (propsTime ⟨some "a", none, some ⟨some 0, none, none, none⟩⟩)
       ((7200000 : ℤ) - 60 * 60 * 1000) = false ∧
     timeAfter (propsTime ⟨some "b", none, some ⟨some 0, none, none, none⟩⟩)
       ((7200000 : ℤ) - 60 * 60 * 1000) = false) ∧
    ((noveltyUpdate ⟨{"a", "b", "c"}, ∅⟩
        [⟨some "a", none, some ⟨some 0, none, none, none⟩⟩,
         ⟨some "b", none, some ⟨some 0, none, none, none⟩⟩,
         ⟨some "d", none, some ⟨some 7199000, none, none, none⟩⟩] 7200000).1 =
      [⟨some "d", none, some ⟨some 7199000, none, none, none⟩⟩] ∧
     "d" ∈ (noveltyUpdate ⟨{"a", "b", "c"}, ∅⟩
        [⟨some "a", none, some ⟨some 0, none, none, none⟩⟩,
         ⟨some "b", none, some ⟨some 0, none, none, none⟩⟩,
         ⟨some "d", none, some ⟨some 7199000, none, none, none⟩⟩] 7200000).2.announced ∧
     (noveltyUpdate ⟨{"a", "b", "c"}, ∅⟩
        [⟨some "a", none, some ⟨some 0, none, none, none⟩⟩,
         ⟨some "b", none, some ⟨some 0, none, none, none⟩⟩,
         ⟨some "d", none, some ⟨some 7199000, none, none, none⟩⟩] 7200000).2.seenLastCycle =
       {"a", "b", "d"} ∧
     (noveltyUpdate (noveltyUpdate ⟨{"a", "b", "c"}, ∅⟩
        [⟨some "a", none, some ⟨some 0, none, none, none⟩⟩,
         ⟨some "b", none, some ⟨some 0, none, none, none⟩⟩,
         ⟨some "d", none, some ⟨some 7199000, none, none, none⟩⟩] 7200000).2
        [⟨some "a", none, some ⟨some 0, none, none, none⟩⟩,
         ⟨some "b", none, some ⟨some 0, none, none, none⟩⟩,
         ⟨some "d", none, some ⟨some 7199000, none, none, none⟩⟩] 7200000).1 = []) :=
  ⟨⟨by decide, by decide, by decide, by decide, by decide, by decide,
    by decide, by decide, by decide, by decide, by decide, by decide⟩,
   C1_novelty_transition "a" "b" "c" "d" _ _ _ 7200000 7200000
     (by decide) (by decide) (by decide) (by decide) (by decide) (by decide)
     (by decide) (by decide) (by decide) (by decide) (by decide) (by decide)⟩

/-- C2: the announced set is monotone along any sequence of update cycles,
and an id already announced is never returned as novel by any later cycle,
even if its record keeps reappearing in the fetched set. -/
theorem C2_announced_monotone (st : NoveltyState)
    (cycles : List (List Feature × ℤ)) (x : String) (hx : x ∈ st.announced) :
    st.announced ⊆ (runCycles st cycles).1.announced ∧
    ∀ nl ∈ (runCycles st cycles).2, ∀ r ∈ nl, r.id ≠ some x := by
  induction cycles generalizing st with
  | nil =>
    refine ⟨Finset.Subset.refl _, ?_⟩
    intro nl hnl
    simp [runCycles] at hnl
  | cons c rest ih =>
    obtain ⟨records, now⟩ := c
    simp only [runCycles]
    have hmono := noveltyUpdate_announced_mono st records now
    obtain ⟨ih1, ih2⟩ := ih (noveltyUpdate st records now).2 (hmono hx)
    refine ⟨hmono.trans ih1, ?_⟩
    intro nl hnl r hr
    rcases List.mem_cons.mp hnl with h | h
    · subst h
      intro hid
      have hfalse := noveltyUpdate_novel_not_announced hr
      rw [hid] at hfalse
      simp only [idMem, decide_eq_false_iff_not] at hfalse
      exact hfalse hx
    · exact ih2 nl h r hr

theorem C2_announced_monotone_witness :
    ("x" ∈ (⟨∅, {"x"}⟩ : NoveltyState).announced) ∧
    ((⟨∅, {"x"}⟩ : NoveltyState).announced ⊆
      (runCycles ⟨∅, {"x"}⟩
        [([⟨some "x", none, some ⟨some 10, none, none, none⟩⟩], 5)]).1.announced ∧
     ∀ nl ∈ (runCycles ⟨∅, {"x"}⟩
        [([⟨some "x", none, some ⟨some 10, none, none, none⟩⟩], 5)]).2,
       ∀ r ∈ nl, r.id ≠ some "x") :=
  ⟨by decide, C2_announced_monotone ⟨∅, {"x"}⟩
    [([⟨some "x", none, some ⟨some 10, none, none, none⟩⟩], 5)] "x" (by decide)⟩

/-! ## FilterEngine -/

/-- Environment-dependent string conversions of the dashboard, passed in
explicitly: JS template rendering of a number, `Date.prototype.toISOString`,
`Date.prototype.toLocaleString` on a date string and on epoch milliseconds,
and `Date` parsing of a date-input string (`none` models an invalid date). -/
structure JsFormat where
  numFmt : ℚ → String
  isoFmt : ℤ → String
  locStrFmt : String → String
  locIntFmt : ℤ → String
  dateParse : String → Option ℤ

/-- The per-record predicate of the filtering effect, as the source checks
it: a record without `properties` or `geometry` is dropped; a falsy `time`
(absent or `0`) or a nullish `mag` is dropped; then
`(!startDate || eqTime >= new Date(startDate)) && (!endDate || eqTime <= new
Date(endDate)) && eqMag >= minMag` (an unparsable non-empty date makes both
comparisons false). -/
def filterPred (dateParse : String → Option ℤ) (startDate endDate : String)
    (minMag : ℚ) (r : Feature) : Bool :=
  match r.properties, r.geometry with
  | some p, some _ =>
    (match (match p.time with
            | some t => if t = 0 then none else some t
            | none => none), p.mag with
     | some t, some m =>
       (startDate == "" ||
         (match dateParse startDate with
          | some s => decide (s ≤ t)
          | none => false)) &&
       (endDate == "" ||
         (match dateParse endDate with
          | some e => decide (t ≤ e)
          | none => false)) &&
       decide (minMag ≤ m)
     | _, _ => false)
  | _, _ => false

/-- The filtering effect: `earthquakes.filter(...)` (the source's
short-circuit `if (earthquakes.length === 0) setFilteredEarthquakes([])`
coincides with filtering the empty list). -/
def filterRecords (dateParse : String → Option ℤ) (startDate endDate : String)
    (minMag : ℚ) (records : List Feature) : List Feature :=
  records.filter (filterPred dateParse startDate endDate minMag)

/-- The record-inclusion predicate in the words of claim C6: originTime and
magnitude non-null, AND (start unset OR originTime >= start), AND (end
unset OR originTime <= end), AND magnitude >= minMagnitude. -/
def specC6FilterPred (dateParse : String → Option ℤ) (startDate endDate : String)
    (minMag : ℚ) (r : Feature) : Bool :=
  match propsTime r, propsMag r with
  | some t, some m =>
    (startDate == "" ||
      (match dateParse startDate with
       | some s => decide (s ≤ t)
       | none => false)) &&
    (endDate == "" ||
      (match dateParse endDate with
       | some e => decide (t ≤ e)
       | none => false)) &&
    decide (minMag ≤ m)
  | _, _ => false

/-- C6 (counterexample): the claim's predicate disagrees with the code: a
record without a geometry object, and a record whose originTime is epoch 0
(falsy in JS), both satisfy the claim's inclusion conditions but are
dropped by the code's filter. -/
theorem C6_counterexample :
    filterRecords (fun _ => none) "" "" 0
      [⟨some "g", none, some ⟨some 5, some 1, none, none⟩⟩,
       ⟨some "t", some ⟨some [some 1, some 2, some 3]⟩,
        some ⟨some 0, some 1, none, none⟩⟩] ≠
    List.filter (specC6FilterPred (fun _ => none) "" "" 0)
      [⟨some "g", none, some ⟨some 5, some 1, none, none⟩⟩,
       ⟨some "t", some ⟨some [some 1, some 2, some 3]⟩,
        some ⟨some 0, some 1, none, none⟩⟩] := by
  decide

/-- The claim's predicate amended by what the code actually requires in
addition: a geometry object must be present and the originTime must be
truthy (non-null and non-zero). -/
def amendedC6FilterPred (dateParse : String → Option ℤ) (startDate endDate : String)
    (minMag : ℚ) (r : Feature) : Bool :=
  r.geometry.isSome &&
  (match propsTime r, propsMag r with
   | some t, some m =>
     (t != 0) &&
     (startDate == "" ||
       (match dateParse startDate with
        | some s => decide (s ≤ t)
        | none => false)) &&
     (endDate == "" ||
       (match dateParse endDate with
        | some e => decide (t ≤ e)
        | none => false)) &&
     decide (minMag ≤ m)
   | _, _ => false)

/-- C6 (amended): the filter result is exactly the order-preserving sublist
of records with a geometry object, truthy (non-null, non-zero) originTime,
non-null magnitude, satisfying the optional date bounds and the minimum
magnitude; the input list is untouched (the result is a sublist of it). -/
theorem C6_filter_contract (dateParse : String → Option ℤ)
    (startDate endDate : String) (minMag : ℚ) (records : List Feature) :
    filterRecords dateParse startDate endDate minMag records =
      records.filter (amendedC6FilterPred dateParse startDate endDate minMag) ∧
    (filterRecords dateParse startDate endDate minMag records).Sublist records := by
  have hpt : ∀ r : Feature, filterPred dateParse startDate endDate minMag r =
      amendedC6FilterPred dateParse startDate endDate minMag r := by
    intro r
    obtain ⟨i, g, p⟩ := r
    cases p with
    | none => cases g <;> simp [filterPred, amendedC6FilterPred, propsTime, propsMag]
    | some p =>
      cases g with
      | none => simp [filterPred, amendedC6FilterPred, propsTime, propsMag]
      | some g =>
        obtain ⟨t, m, pl, u⟩ := p
        cases t with
        | none => simp [filterPred, amendedC6FilterPred, propsTime, propsMag]
        | some t =>
          cases m with
          | none => simp [filterPred, amendedC6FilterPred, propsTime, propsMag]
          | some m =>
            by_cases ht : t = 0
            · simp [filterPred, amendedC6FilterPred, propsTime, propsMag, ht]
            · have hbne : (t != 0) = true := by simp [bne_iff_ne, ht]
              simp [filterPred, amendedC6FilterPred, propsTime, propsMag, ht, hbne]
  constructor
  · exact List.filter_congr fun r _ => hpt r
  · exact List.filter_sublist records

/-! ## FeedFetcher: one `fetchEarthquakes` cycle -/

/-- The component state touched by `fetchEarthquakes`. -/
structure DashState where
  earthquakes : List Feature
  previousEarthquakeIds : Finset String
  announcedEarthquakeIds : Finset String
  isLoading : Bool
  recentCount : ℕ
  lastUpdated : ℤ
deriving DecidableEq

/-- `data.features.filter(...)`: the ingestion validation applied to the
raw payload (`none` models a null entry in the features array). -/
def validFeatures (payload : List (Option Feature)) : List Feature :=
  payload.filterMap (fun f? => if isValidFeature f? then f? else none)

/-- One polling cycle of `fetchEarthquakes`: the fetch result is either a
failure (transport error, non-success response body without a features
array, malformed payload — anything the `catch` receives) or the parsed
features.  On failure only the `finally` clause runs, clearing the loading
flag.  On success the validated records replace the store, the novelty
state steps, the recent count (records of the last hour) and the timestamp
are refreshed, and the cycle's novel records are returned for alerting. -/
def fetchCycle (st : DashState)
    (res : Except String (List (Option Feature))) (now : ℤ) :
    DashState × List Feature :=
  match res with
  | .error _ => ({ st with isLoading := false }, [])
  | .ok payload =>
    let valid := validFeatures payload
    let step := noveltyUpdate
      ⟨st.previousEarthquakeIds, st.announcedEarthquakeIds⟩ valid now
    let recent := valid.filter (fun f =>
      (match propsTime f with
       | some t => decide (t ≠ 0)
       | none => false) && timeAfter (propsTime f) (now - 60 * 60 * 1000))
    ({ earthquakes := valid,
       previousEarthquakeIds := step.2.seenLastCycle,
       announcedEarthquakeIds := step.2.announced,
       isLoading := false,
       recentCount := recent.length,
       lastUpdated := now }, step.1)

/-- C9: a failed fetch cycle is recovered locally: the record store, the
novelty state, and hence the filtered list are exactly as before, only the
loading flag is cleared — and any subsequent cycle behaves exactly as if
the failed cycle had never happened. -/
theorem C9_fetch_failure_atomicity (st : DashState) (e : String) (now : ℤ)
    (res2 : Except String (List (Option Feature))) (now2 : ℤ) :
    fetchCycle st (.error e) now = ({ st with isLoading := false }, []) ∧
    (fetchCycle st (.error e) now).1.earthquakes = st.earthquakes ∧
    (fetchCycle st (.error e) now).1.previousEarthquakeIds =
      st.previousEarthquakeIds ∧
    (fetchCycle st (.error e) now).1.announcedEarthquakeIds =
      st.announcedEarthquakeIds ∧
    (fetchCycle st (.error e) now).1.isLoading = false ∧
    (∀ (dateParse : String → Option ℤ) (startDate endDate : String) (minMag : ℚ),
      filterRecords dateParse startDate endDate minMag
        (fetchCycle st (.error e) now).1.earthquakes =
      filterRecords dateParse startDate endDate minMag st.earthquakes) ∧
    fetchCycle (fetchCycle st (.error e) now).1 res2 now2 =
      fetchCycle st res2 now2 := by
  refine ⟨rfl, rfl, rfl, rfl, rfl, fun _ _ _ _ => rfl, ?_⟩
  cases res2 with
  | error e2 => rfl
  | ok payload => rfl

/-! ## Counting pattern occurrences across concatenations -/

theorem prefix_of_prefix_append_le {pat x y : List Char} (h : pat <+: x ++ y)
    (hlen : pat.length ≤ x.length) : pat <+: x := by
  have hp := List.prefix_iff_eq_take.mp h
  rw [List.take_append_eq_append_take, Nat.sub_eq_zero_of_le hlen,
    List.take_zero, List.append_nil] at hp
  rw [hp]
  exact List.take_prefix _ _

theorem append_left_isPrefix {pat x y : List Char} (h : pat <+: x ++ y)
    (hlen : x.length ≤ pat.length) : x <+: pat := by
  have hp := List.prefix_iff_eq_take.mp h
  rw [List.take_append_eq_append_take, List.take_of_length_le hlen] at hp
  exact ⟨_, hp.symm⟩

theorem suffix_right_of_le {t x y : List Char} (h : t <:+ x ++ y)
    (hlen : t.length ≤ y.length) : t <:+ y := by
  rw [← List.reverse_prefix] at h ⊢
  rw [List.reverse_append] at h
  exact prefix_of_prefix_append_le h (by simpa using hlen)

/-- Occurrence counting distributes over an append whose left part has no
short nonempty suffix that is a prefix of the pattern (no occurrence can
straddle the seam). -/
theorem countSub_append (pat : List Char) (hpat : pat ≠ []) :
    ∀ a b : List Char,
      (∀ s, s <:+ a → s ≠ [] → s.length < pat.length → ¬s <+: pat) →
      countSub (a ++ b) pat = countSub a pat + countSub b pat := by
  intro a
  induction a with
  | nil =>
    intro b _
    simp [countSub]
  | cons c t ih =>
    intro b h
    rw [List.cons_append]
    simp only [countSub]
    rw [ih b (fun s hs => h s (hs.trans (List.suffix_cons c t)))]
    have hiff : pat.isPrefixOf ((c :: t) ++ b) = pat.isPrefixOf (c :: t) := by
      by_cases hp : pat <+: c :: t
      · rw [List.isPrefixOf_iff_prefix.mpr
          (hp.trans (List.prefix_append (c :: t) b)),
          List.isPrefixOf_iff_prefix.mpr hp]
      · by_cases hp2 : pat <+: (c :: t) ++ b
        · exfalso
          rcases le_or_lt pat.length (c :: t).length with hle | hlt
          · exact hp (prefix_of_prefix_append_le hp2 hle)
          · exact h (c :: t) List.suffix_rfl (by simp) hlt
              (append_left_isPrefix hp2 (le_of_lt hlt))
        · have e1 : pat.isPrefixOf ((c :: t) ++ b) = false := by
            rw [← Bool.not_eq_true, List.isPrefixOf_iff_prefix]
            exact hp2
          have e2 : pat.isPrefixOf (c :: t) = false := by
            rw [← Bool.not_eq_true, List.isPrefixOf_iff_prefix]
            exact hp
          rw [e1, e2]
    rw [show (c : Char) :: (t ++ b) = (c :: t) ++ b from rfl, hiff]
    omega

/-- Decidable check that no short nonempty suffix of `s` is a prefix of
`pat` (so no occurrence of `pat` can start inside `s` and continue past its
end). -/
def chunkBoundaryOk (s pat : List Char) : Bool :=
  s.tails.all (fun t =>
    t.isEmpty || decide (pat.length ≤ t.length) || !(t.isPrefixOf pat))

theorem chunkBoundaryOk_spec {s pat : List Char}
    (h : chunkBoundaryOk s pat = true) :
    ∀ t, t <:+ s → t ≠ [] → t.length < pat.length → ¬t <+: pat := by
  intro t hts htne htlen hpref
  rw [chunkBoundaryOk, List.all_eq_true] at h
  have h2 := h t ((List.mem_tails _ _).mpr hts)
  simp only [Bool.or_eq_true] at h2
  rcases h2 with (h1 | h1) | h1
  · exact htne (List.isEmpty_iff.mp h1)
  · rw [decide_eq_true_eq] at h1
    omega
  · simp only [Bool.not_eq_true'] at h1
    exact absurd (List.isPrefixOf_iff_prefix.mpr hpref) (by simp [h1])

theorem field_boundary {f : List Char} {pc : Char} {pr : List Char}
    (hf : pc ∉ f) :
    ∀ t, t <:+ f → t ≠ [] → t.length < (pc :: pr).length → ¬t <+: pc :: pr := by
  intro t hts htne _ hpref
  obtain ⟨c, t', rfl⟩ := List.exists_cons_of_ne_nil htne
  rcases List.cons_prefix_cons.mp hpref with ⟨rfl, -⟩
  exact hf (hts.subset (List.mem_cons_self _ _))

theorem countSub_field_zero {f : List Char} {pc : Char} {pr : List Char}
    (hf : pc ∉ f) : countSub f (pc :: pr) = 0 := by
  induction f with
  | nil => rfl
  | cons c t ih =>
    simp only [List.mem_cons, not_or] at hf
    simp only [countSub]
    have hpf : (pc :: pr).isPrefixOf (c :: t) = false := by
      rw [← Bool.not_eq_true, List.isPrefixOf_iff_prefix]
      intro hp
      rcases List.cons_prefix_cons.mp hp with ⟨h1, -⟩
      exact hf.1 h1
    rw [hpf, ih hf.2]
    simp

/-! ## Decimal rendering: `Number.prototype.toFixed` -/

/-- The character of the decimal digit `m % 10`. -/
def digitChar (m : ℕ) : Char := Char.ofNat (48 + m % 10)

/-- Decimal digits of `n`, most significant first; `fuel` bounds the digit
count (structural fuel keeps the definition kernel-reducible; 24 digits are
ample for every quantity the dashboard renders). -/
def natDigits : ℕ → ℕ → List Char
  | 0, _ => []
  | fuel + 1, n =>
    if n = 0 then [] else natDigits fuel (n / 10) ++ [digitChar (n % 10)]

/-- Decimal notation of `n`. -/
def natStr (n : ℕ) : List Char := if n = 0 then ['0'] else natDigits 24 n

/-- JS `x.toFixed(digits)` on a rational (round half away from zero), for
`digits ≥ 1`: the scaled rounding `n = round(|q| * 10 ^ digits)` is computed
on the numerator and denominator with integer arithmetic. -/
def ratToFixed (digits : ℕ) (q : ℚ) : String :=
  let n : ℕ := (q.num.natAbs * 10 ^ digits * 2 + q.den) / (2 * q.den)
  let ds := natDigits 24 (n % 10 ^ digits)
  ⟨(if q < 0 then ['-'] else []) ++ natStr (n / 10 ^ digits) ++
    '.' :: (List.replicate (digits - ds.length) '0' ++ ds)⟩

theorem digitChar_range (m : ℕ) :
    48 ≤ (digitChar m).toNat ∧ (digitChar m).toNat ≤ 57 := by
  have h : m % 10 < 10 := Nat.mod_lt _ (by norm_num)
  unfold digitChar
  set k := m % 10 with hk
  interval_cases k <;> decide

theorem natDigits_range {fuel n : ℕ} {c : Char} (hc : c ∈ natDigits fuel n) :
    48 ≤ c.toNat ∧ c.toNat ≤ 57 := by
  induction fuel generalizing n with
  | zero => simp [natDigits] at hc
  | succ fuel ih =>
    simp only [natDigits] at hc
    split at hc
    · simp at hc
    · rcases List.mem_append.mp hc with h | h
      · exact ih h
      · rcases List.mem_singleton.mp h with rfl
        exact digitChar_range _

theorem natStr_range {n : ℕ} {c : Char} (hc : c ∈ natStr n) :
    48 ≤ c.toNat ∧ c.toNat ≤ 57 := by
  unfold natStr at hc
  split at hc
  · rcases List.mem_singleton.mp hc with rfl
    decide
  · exact natDigits_range hc

theorem string_data_append (a b : String) : (a ++ b).data = a.data ++ b.data := rfl

theorem ratToFixed_range {d : ℕ} {q : ℚ} {c : Char}
    (hc : c ∈ (ratToFixed d q).data) : 45 ≤ c.toNat ∧ c.toNat ≤ 57 := by
  unfold ratToFixed at hc
  rcases List.mem_append.mp hc with h | h
  · rcases List.mem_append.mp h with h | h
    · split at h
      · rcases List.mem_singleton.mp h with rfl; decide
      · cases h
    · exact ⟨le_trans (by norm_num) (natStr_range h).1, (natStr_range h).2⟩
  · rcases List.mem_cons.mp h with rfl | h
    · decide
    · rcases List.mem_append.mp h with h | h
      · rcases List.mem_replicate.mp h with ⟨_, rfl⟩; decide
      · exact ⟨le_trans (by norm_num) (natDigits_range h).1, (natDigits_range h).2⟩

theorem ratToFixed_no_nl (d : ℕ) (q : ℚ) : '\n' ∉ (ratToFixed d q).data := by
  intro h
  have := (ratToFixed_range h).1
  revert this; decide

theorem ratToFixed_no_lt (d : ℕ) (q : ℚ) : '<' ∉ (ratToFixed d q).data := by
  intro h
  have := (ratToFixed_range h).2
  revert this; decide

/-! ## Line splitting and joining -/

/-- Split a character list at every occurrence of `c` (JS `s.split(c)`). -/
def splitChar : List Char → Char → List (List Char)
  | [], _ => [[]]
  | a :: t, c =>
    if a = c then [] :: splitChar t c
    else
      match splitChar t c with
      | [] => [[a]]
      | p :: ps => (a :: p) :: ps

/-- Join character lists with separator `c` (JS `parts.join(c)`). -/
def joinChar : List (List Char) → Char → List Char
  | [], _ => []
  | [x], _ => x
  | x :: y :: ys, c => x ++ c :: joinChar (y :: ys) c

/-- JS `Array.prototype.join(sep)` on strings. -/
def joinWith (sep : String) : List String → String
  | [] => ""
  | x :: xs => xs.foldl (fun acc a => acc ++ sep ++ a) x

theorem splitChar_ne_nil (t : List Char) (c : Char) : splitChar t c ≠ [] := by
  induction t with
  | nil => simp [splitChar]
  | cons a t ih =>
    simp only [splitChar]
    split
    · simp
    · split
      · simp
      · simp

theorem splitChar_no_sep {s : List Char} {c : Char} (h : c ∉ s) :
    splitChar s c = [s] := by
  induction s with
  | nil => rfl
  | cons a t ih =>
    simp only [List.mem_cons, not_or] at h
    have hac : ¬a = c := fun hh => h.1 hh.symm
    simp only [splitChar, if_neg hac, ih h.2]

theorem splitChar_append_cons (x rest : List Char) (c : Char) (hx : c ∉ x) :
    splitChar (x ++ c :: rest) c = x :: splitChar rest c := by
  induction x with
  | nil => simp [splitChar]
  | cons a t ih =>
    simp only [List.mem_cons, not_or] at hx
    have hac : ¬a = c := fun hh => hx.1 hh.symm
    rw [List.cons_append]
    simp only [splitChar, if_neg hac, ih hx.2]

theorem splitChar_joinChar {parts : List (List Char)} {c : Char}
    (hne : parts ≠ []) (hp : ∀ p ∈ parts, c ∉ p) :
    splitChar (joinChar parts c) c = parts := by
  induction parts with
  | nil => exact absurd rfl hne
  | cons x xs ih =>
    cases xs with
    | nil =>
      simp only [joinChar]
      exact splitChar_no_sep (hp x (by simp))
    | cons y ys =>
      simp only [joinChar]
      rw [splitChar_append_cons _ _ _ (hp x (by simp))]
      congr 1
      exact ih (by simp) (fun p hpp => hp p (List.mem_cons_of_mem _ hpp))

theorem joinChar_cons_append (a b : List Char) (rest : List (List Char)) (c : Char) :
    joinChar ((a ++ b) :: rest) c = a ++ joinChar (b :: rest) c := by
  cases rest with
  | nil => rfl
  | cons r rs => simp [joinChar, List.append_assoc]

theorem foldl_nl_data (x : String) (xs : List String) :
    (xs.foldl (fun acc a => acc ++ "\n" ++ a) x).data =
      joinChar (x.data :: xs.map String.data) '\n' := by
  induction xs generalizing x with
  | nil => rfl
  | cons y ys ih =>
    rw [List.foldl_cons, ih, List.map_cons]
    have hdata : (x ++ "\n" ++ y).data = (x.data ++ ['\n']) ++ y.data := by
      rw [string_data_append, string_data_append]
    rw [hdata, joinChar_cons_append]
    cases hys : ys.map String.data with
    | nil => simp [joinChar, List.append_assoc]
    | cons z zs => simp [joinChar, List.append_assoc]

theorem joinWith_nl_data (l : List String) (hne : l ≠ []) :
    (joinWith "\n" l).data = joinChar (l.map String.data) '\n' := by
  cases l with
  | nil => exact absurd rfl hne
  | cons x xs =>
    simp only [joinWith, List.map_cons]
    exact foldl_nl_data x xs

/-! ## ExportSerializer: CSV (`downloadCSV`) -/

/-- The destructured coordinate entry `i` of
`eq.geometry.coordinates || [null, null, null]` (`none` for JSON null; the
source only serializes records behind the filter, which guarantees a
geometry object, so the absent-geometry branch is a defensive default). -/
def coordAt (r : Feature) (i : ℕ) : Option ℚ :=
  ((r.geometry.bind Geometry.coordinates).getD [none, none, none]).getD i none

/-- `eq.properties?.place || 'Unknown location'` -/
def csvPlace (r : Feature) : String := jsOr (propsPlace r) "Unknown location"

/-- `place.includes(',') ? \x22...place...\x22 : place` -/
def csvEscapedPlace (r : Feature) : String :=
  if containsSub (csvPlace r).data (",".data) then "\"" ++ csvPlace r ++ "\""
  else csvPlace r

/-- `v !== null ? v.toFixed(d) : ''` for a destructured coordinate. -/
def optFixed (d : ℕ) (v : Option ℚ) : String :=
  match v with
  | some q => ratToFixed d q
  | none => ""

/-- One CSV data row: the 8 fields of `downloadCSV`, joined with commas. -/
def csvRow (F : JsFormat) (r : Feature) : String :=
  jsOr r.id "" ++ "," ++
  csvEscapedPlace r ++ "," ++
  (match propsMag r with
   | some m => ratToFixed 2 m
   | none => "") ++ "," ++
  (match propsTime r with
   | some t => if t = 0 then "" else F.locIntFmt t
   | none => "") ++ "," ++
  optFixed 6 (coordAt r 0) ++ "," ++
  optFixed 6 (coordAt r 1) ++ "," ++
  optFixed 2 (coordAt r 2) ++ "," ++
  jsOr (propsUrl r) ""

/-- The CSV header line, `headers.join(',')`. -/
def csvHeader : String :=
  "Earthquake ID,Location/Place,Magnitude,Date & Time,Longitude,Latitude,Depth (km),USGS URL"

/-- `[headers.join(','), ...rows].join('\n')` -/
def csvText (F : JsFormat) (l : List Feature) : String :=
  joinWith "\n" (csvHeader :: l.map (csvRow F))

/-- The blob content: a UTF-8 BOM followed by the CSV text. -/
def csvContent (F : JsFormat) (l : List Feature) : String :=
  "\uFEFF" ++ csvText F l

/-- A file handed to the save-file capability. -/
structure SavedFile where
  name : String
  content : String
deriving DecidableEq

/-- `downloadCSV`: on an empty filtered list, no file and the alert notice;
otherwise the CSV file named after the active date range. -/
def downloadCSVOp (F : JsFormat) (filtered : List Feature)
    (startDate endDate : String) : Option SavedFile × Option String :=
  if filtered.length = 0 then
    (none, some "No earthquakes to download for the selected filters.")
  else
    (some ⟨"ethiopia_earthquakes_" ++ startDate ++ "_to_" ++ endDate ++ ".csv",
      csvContent F filtered⟩, none)

theorem optFixed_no_nl (d : ℕ) (v : Option ℚ) : '\n' ∉ (optFixed d v).data := by
  cases v with
  | some q => exact ratToFixed_no_nl d q
  | none => simp [optFixed]

theorem csvEscapedPlace_no_nl {r : Feature} (hplace : '\n' ∉ (csvPlace r).data) :
    '\n' ∉ (csvEscapedPlace r).data := by
  unfold csvEscapedPlace
  split
  · simp only [string_data_append, List.mem_append]
    rintro ((h | h) | h)
    · revert h; decide
    · exact hplace h
    · revert h; decide
  · exact hplace

theorem csvRow_no_nl (F : JsFormat) (r : Feature)
    (hfmt : ∀ t, '\n' ∉ (F.locIntFmt t).data)
    (hid : '\n' ∉ (jsOr r.id "").data)
    (hplace : '\n' ∉ (csvPlace r).data)
    (hurl : '\n' ∉ (jsOr (propsUrl r) "").data) :
    '\n' ∉ (csvRow F r).data := by
  have hesc := csvEscapedPlace_no_nl hplace
  have hmag : '\n' ∉ (match propsMag r with
      | some m => ratToFixed 2 m
      | none => "").data := by
    cases propsMag r with
    | some m => exact ratToFixed_no_nl 2 m
    | none => simp
  have htime : '\n' ∉ (match propsTime r with
      | some t => if t = 0 then "" else F.locIntFmt t
      | none => "").data := by
    cases propsTime r with
    | some t =>
      by_cases ht : t = 0
      · simp [ht]
      · simp only [if_neg ht]; exact hfmt t
    | none => simp
  intro hmem
  simp only [csvRow, string_data_append, List.mem_append, or_assoc] at hmem
  rcases hmem with h | h | h | h | h | h | h | h | h | h | h | h | h | h | h
  · exact hid h
  · revert h; decide
  · exact hesc h
  · revert h; decide
  · exact hmag h
  · revert h; decide
  · exact htime h
  · revert h; decide
  · exact optFixed_no_nl 6 (coordAt r 0) h
  · revert h; decide
  · exact optFixed_no_nl 6 (coordAt r 1) h
  · revert h; decide
  · exact optFixed_no_nl 2 (coordAt r 2) h
  · revert h; decide
  · exact hurl h

/-- C7 (counterexample): a record whose place text contains a newline
passes every filter criterion, yet the generated CSV has more than N+1
lines (the serializer only quotes commas, not newlines). -/
theorem C7_counterexample :
    (splitChar (csvContent
        ⟨fun _ => "n", fun _ => "i", fun _ => "l", fun _ => "t", fun _ => none⟩
        (filterRecords (fun _ => none) "" "" 0
          [⟨some "id1", some ⟨some [some 1, some 2, some 3]⟩,
            some ⟨some 1000, some 5, some "a\nb", none⟩⟩])).data '\n').length ≠
      (filterRecords (fun _ => none) "" "" 0
        [⟨some "id1", some ⟨some [some 1, some 2, some 3]⟩,
          some ⟨some 1000, some 5, some "a\nb", none⟩⟩]).length + 1 := by
  decide

/-- C7 (amended): provided no serialized text field contains a newline
(true of every real feed record; the code does not escape newlines), the
CSV for the N filtered records splits at newlines into exactly the
BOM-prefixed header line followed by the N data rows in input order, hence
has N+1 lines; and a row whose place contains a comma carries the place
wrapped in double quotes. -/
theorem C7_csv_shape (F : JsFormat) (startDate endDate : String) (minMag : ℚ)
    (records : List Feature)
    (hfmt : ∀ t, '\n' ∉ (F.locIntFmt t).data)
    (hflds : ∀ r ∈ filterRecords F.dateParse startDate endDate minMag records,
      '\n' ∉ (jsOr r.id "").data ∧ '\n' ∉ (csvPlace r).data ∧
        '\n' ∉ (jsOr (propsUrl r) "").data) :
    splitChar (csvContent F
        (filterRecords F.dateParse startDate endDate minMag records)).data '\n' =
      ("\uFEFF" ++ csvHeader).data ::
        (filterRecords F.dateParse startDate endDate minMag records).map
          (fun r => (csvRow F r).data) ∧
    (splitChar (csvContent F
        (filterRecords F.dateParse startDate endDate minMag records)).data '\n').length =
      (filterRecords F.dateParse startDate endDate minMag records).length + 1 ∧
    ∀ r ∈ filterRecords F.dateParse startDate endDate minMag records,
      containsSub (csvPlace r).data (",".data) = true →
        ("\"" ++ csvPlace r ++ "\"").data <:+: (csvRow F r).data := by
  have hmain : splitChar (csvContent F
      (filterRecords F.dateParse startDate endDate minMag records)).data '\n' =
      ("\uFEFF" ++ csvHeader).data ::
        (filterRecords F.dateParse startDate endDate minMag records).map
          (fun r => (csvRow F r).data) := by
    have hdata : (csvContent F
        (filterRecords F.dateParse startDate endDate minMag records)).data =
        joinChar (("\uFEFF" ++ csvHeader).data ::
          (filterRecords F.dateParse startDate endDate minMag records).map
            (fun r => (csvRow F r).data)) '\n' := by
      rw [csvContent, string_data_append, csvText,
        joinWith_nl_data _ (by simp), List.map_cons, List.map_map]
      rw [show ("\uFEFF" ++ csvHeader).data = "\uFEFF".data ++ csvHeader.data
        from string_data_append _ _, joinChar_cons_append]
      rfl
    rw [hdata]
    refine splitChar_joinChar (by simp) ?_
    intro p hp
    rcases List.mem_cons.mp hp with rfl | hp
    · decide
    · rcases List.mem_map.mp hp with ⟨r, hr, rfl⟩
      obtain ⟨hid, hplace, hurl⟩ := hflds r hr
      exact csvRow_no_nl F r hfmt hid hplace hurl
  refine ⟨hmain, by rw [hmain]; simp, ?_⟩
  intro r hr hq
  have hescEq : csvEscapedPlace r = "\"" ++ csvPlace r ++ "\"" := by
    unfold csvEscapedPlace
    rw [if_pos hq]
  have heq : (csvRow F r).data =
      (jsOr r.id "" ++ ",").data ++ ((csvEscapedPlace r).data ++
        ("," ++
          (match propsMag r with
           | some m => ratToFixed 2 m
           | none => "") ++ "," ++
          (match propsTime r with
           | some t => if t = 0 then "" else F.locIntFmt t
           | none => "") ++ "," ++
          optFixed 6 (coordAt r 0) ++ "," ++
          optFixed 6 (coordAt r 1) ++ "," ++
          optFixed 2 (coordAt r 2) ++ "," ++
          jsOr (propsUrl r) "").data) := by
    simp [csvRow, string_data_append, List.append_assoc]
  rw [← hescEq]
  rw [heq]
  exact ((List.prefix_append _ _).isInfix).trans ((List.suffix_append _ _).isInfix)

/-! ## ExportSerializer: KML / KMZ (`generateKML`, `downloadKMZ`) -/

/-- `eq.properties?.mag?.toFixed(1) || 'Unknown'` -/
def kmlMag (r : Feature) : String :=
  match propsMag r with
  | some m => ratToFixed 1 m
  | none => "Unknown"

/-- `eq.properties?.place || 'Unknown location'` -/
def kmlPlace (r : Feature) : String := jsOr (propsPlace r) "Unknown location"

/-- `eq.properties?.time ? new Date(eq.properties.time).toISOString() : 'Unknown'` -/
def kmlTime (F : JsFormat) (r : Feature) : String :=
  match propsTime r with
  | some t => if t = 0 then "Unknown" else F.isoFmt t
  | none => "Unknown"

/-- `${depth?.toFixed(1)}`: a JS template renders the undefined result of
optional chaining on null as the text "undefined". -/
def kmlDepth (r : Feature) : String :=
  match coordAt r 2 with
  | some d => ratToFixed 1 d
  | none => "undefined"

/-- `eq.properties?.url || ''` -/
def kmlUrl (r : Feature) : String := jsOr (propsUrl r) ""

/-- `${lon}` for a destructured coordinate: a number rendered by the
template, JSON null rendered as "null". -/
def kmlCoord (v : Option ℚ) (F : JsFormat) : String :=
  match v with
  | some q => F.numFmt q
  | none => "null"

/-- The fixed KML document prologue (XML declaration, document name, shared
icon style). -/
def kmlHeader : String :=
  "<?xml version=\"1.0\" encoding=\"UTF-8\"?>\n<kml xmlns=\"http://www.opengis.net/kml/2.2\">\n  <Document>\n    <name>Ethiopia Earthquakes</name>\n    <Style id=\"earthquakeStyle\">\n      <IconStyle>\n        <scale>0.8</scale>\n        <Icon>\n          <href>http://maps.google.com/mapfiles/kml/shapes/earthquake.png</href>\n        </Icon>\n      </IconStyle>\n      <LabelStyle>\n        <scale>0</scale>\n      </LabelStyle>\n    </Style>"

/-- The fixed KML document epilogue. -/
def kmlFooter : String := "\n  </Document>\n</kml>"

/-- The fixed texts of the per-record Placemark template, in order, split
at each interpolated field (and, for convenience of the coordinate
statements, at the `coordinates` element boundaries). -/
def kmlP1 : String := "\n    <Placemark>\n      <name>M"

def kmlP2 : String := " - "

def kmlP3 : String := "</name>\n      <description>\n        <![CDATA[\n          <div style=\"padding:10px;\">\n            <h3>Earthquake: M"

def kmlP4 : String := "</h3>\n            <p><b>Location:</b> "

def kmlP5 : String := "</p>\n            <p><b>Time:</b> "

def kmlP6 : String := "</p>\n            <p><b>Depth:</b> "

def kmlP7 : String := " km</p>\n            <p><b>Magnitude:</b> "

def kmlP8 : String := "</p>\n            <p><a href=\""

def kmlP9 : String := "\" target=\"_blank\">View on USGS</a></p>\n          </div>\n        ]]>\n      </description>\n      <styleUrl>#earthquakeStyle</styleUrl>\n      <Point>\n        "

def kmlP10 : String := "<coordinates>"

def kmlP11 : String := ","

def kmlP12 : String := ",0</coordinates>"

def kmlP13 : String := "\n      </Point>\n      <ExtendedData>\n        <Data name=\"magnitude\">\n          <value>"

def kmlP14 : String := "</value>\n        </Data>\n        <Data name=\"depth\">\n          <value>"

def kmlP15 : String := "</value>\n        </Data>\n        <Data name=\"time\">\n          <value>"

def kmlP16 : String := "</value>\n        </Data>\n      </ExtendedData>\n    </Placemark>"

/-- One Placemark: the source's per-record template literal, with the
interpolated display values. -/
def placemarkKML (F : JsFormat) (r : Feature) : String :=
  kmlP1 ++ kmlMag r ++ kmlP2 ++ kmlPlace r ++ kmlP3 ++ kmlMag r ++
  kmlP4 ++ kmlPlace r ++ kmlP5 ++ F.locStrFmt (kmlTime F r) ++
  kmlP6 ++ kmlDepth r ++ kmlP7 ++ kmlMag r ++ kmlP8 ++ kmlUrl r ++
  kmlP9 ++ kmlP10 ++ kmlCoord (coordAt r 0) F ++ kmlP11 ++
  kmlCoord (coordAt r 1) F ++ kmlP12 ++ kmlP13 ++ kmlMag r ++
  kmlP14 ++ kmlDepth r ++ kmlP15 ++ kmlTime F r ++ kmlP16

/-- `generateKML`: the header, then one Placemark appended per record (the
source's `forEach` with `+=`), then the footer. -/
def generateKML (F : JsFormat) (l : List Feature) : String :=
  (l.foldl (fun acc r => acc ++ placemarkKML F r) kmlHeader) ++ kmlFooter

/-- The Placemark open tag, whose occurrences are counted. -/
def pmTag : List Char := "<Placemark>".data

theorem countSub_fixed_append (s : String) (rest : List Char)
    (hs : chunkBoundaryOk s.data pmTag = true) :
    countSub (s.data ++ rest) pmTag = countSub s.data pmTag + countSub rest pmTag :=
  countSub_append pmTag (by decide) _ _ (chunkBoundaryOk_spec hs)

theorem pmTag_cons : pmTag = '<' :: "Placemark>".data := by decide

theorem countSub_field_append (f rest : List Char) (hf : '<' ∉ f) :
    countSub (f ++ rest) pmTag = countSub rest pmTag := by
  have hb : ∀ s, s <:+ f → s ≠ [] → s.length < pmTag.length → ¬s <+: pmTag := by
    intro s hs hne hlen hpre
    rw [pmTag_cons] at hpre hlen
    exact field_boundary hf s hs hne hlen hpre
  have hz : countSub f pmTag = 0 := by
    rw [pmTag_cons]
    exact countSub_field_zero hf
  rw [countSub_append pmTag (by decide) f rest hb, hz, Nat.zero_add]

theorem kmlMag_no_lt (r : Feature) : '<' ∉ (kmlMag r).data := by
  unfold kmlMag
  cases propsMag r with
  | none => decide
  | some m => exact ratToFixed_no_lt 1 m

theorem kmlDepth_no_lt (r : Feature) : '<' ∉ (kmlDepth r).data := by
  unfold kmlDepth
  cases coordAt r 2 with
  | none => decide
  | some d => exact ratToFixed_no_lt 1 d

theorem kmlTime_no_lt (F : JsFormat) (r : Feature)
    (hiso : ∀ t, '<' ∉ (F.isoFmt t).data) : '<' ∉ (kmlTime F r).data := by
  unfold kmlTime
  cases propsTime r with
  | none => show '<' ∉ ("Unknown" : String).data; decide
  | some t =>
    by_cases ht : t = 0
    · simp only [if_pos ht]; decide
    · simp only [if_neg ht]; exact hiso t

theorem kmlCoord_no_lt (v : Option ℚ) (F : JsFormat)
    (hnum : ∀ q, '<' ∉ (F.numFmt q).data) : '<' ∉ (kmlCoord v F).data := by
  unfold kmlCoord
  cases v with
  | none => show '<' ∉ ("null" : String).data; decide
  | some q => exact hnum q

/-- Each Placemark block contains the open tag exactly once, provided the
injected place/url texts and the formatter outputs are free of `<`. -/
theorem countSub_block (F : JsFormat) (r : Feature)
    (hplace : '<' ∉ (kmlPlace r).data) (hurl : '<' ∉ (kmlUrl r).data)
    (hiso : ∀ t, '<' ∉ (F.isoFmt t).data)
    (hloc : ∀ s, '<' ∉ (F.locStrFmt s).data)
    (hnum : ∀ q, '<' ∉ (F.numFmt q).data) :
    countSub (placemarkKML F r).data pmTag = 1 := by
  have hmag := kmlMag_no_lt r
  have hdep := kmlDepth_no_lt r
  have htim := kmlTime_no_lt F r hiso
  have hco0 := kmlCoord_no_lt (coordAt r 0) F hnum
  have hco1 := kmlCoord_no_lt (coordAt r 1) F hnum
  simp only [placemarkKML, string_data_append, List.append_assoc]
  rw [countSub_fixed_append kmlP1 _ (by decide),
    countSub_field_append _ _ hmag,
    countSub_fixed_append kmlP2 _ (by decide),
    countSub_field_append _ _ hplace,
    countSub_fixed_append kmlP3 _ (by decide),
    countSub_field_append _ _ hmag,
    countSub_fixed_append kmlP4 _ (by decide),
    countSub_field_append _ _ hplace,
    countSub_fixed_append kmlP5 _ (by decide),
    countSub_field_append _ _ (hloc (kmlTime F r)),
    countSub_fixed_append kmlP6 _ (by decide),
    countSub_field_append _ _ hdep,
    countSub_fixed_append kmlP7 _ (by decide),
    countSub_field_append _ _ hmag,
    countSub_fixed_append kmlP8 _ (by decide),
    countSub_field_append _ _ hurl,
    countSub_fixed_append kmlP9 _ (by decide),
    countSub_fixed_append kmlP10 _ (by decide),
    countSub_field_append _ _ hco0,
    countSub_fixed_append kmlP11 _ (by decide),
    countSub_field_append _ _ hco1,
    countSub_fixed_append kmlP12 _ (by decide),
    countSub_fixed_append kmlP13 _ (by decide),
    countSub_field_append _ _ hmag,
    countSub_fixed_append kmlP14 _ (by decide),
    countSub_field_append _ _ hdep,
    countSub_fixed_append kmlP15 _ (by decide),
    countSub_field_append _ _ htim]
  decide

/-- No occurrence of the tag can straddle the right edge of a Placemark
block: every short suffix of a block is a suffix of its fixed epilogue. -/
theorem placemarkKML_boundary (F : JsFormat) (r : Feature) :
    ∀ t, t <:+ (placemarkKML F r).data → t ≠ [] → t.length < pmTag.length →
      ¬t <+: pmTag := by
  intro t ht htne hlen hpref
  have h16 : (11 : ℕ) ≤ kmlP16.data.length := by decide
  have hpm : pmTag.length = 11 := by decide
  have hlen' : t.length ≤ kmlP16.data.length := by omega
  unfold placemarkKML at ht
  rw [string_data_append] at ht
  exact chunkBoundaryOk_spec
    (by decide : chunkBoundaryOk kmlP16.data pmTag = true) t
    (suffix_right_of_le ht hlen') htne hlen hpref

theorem foldl_kml_data (F : JsFormat) (l : List Feature) :
    ∀ acc : String, (l.foldl (fun a r => a ++ placemarkKML F r) acc).data =
      acc.data ++ (l.map (fun r => (placemarkKML F r).data)).flatten := by
  induction l with
  | nil => intro acc; simp
  | cons r rest ih =>
    intro acc
    rw [List.foldl_cons, ih, string_data_append]
    simp [List.append_assoc]

theorem generateKML_data (F : JsFormat) (l : List Feature) :
    (generateKML F l).data = kmlHeader.data ++
      ((l.map (fun r => (placemarkKML F r).data)).flatten ++ kmlFooter.data) := by
  rw [generateKML, string_data_append, foldl_kml_data]
  simp [List.append_assoc]

theorem countSub_blocks_footer (F : JsFormat) (l : List Feature)
    (hfields : ∀ r ∈ l, '<' ∉ (kmlPlace r).data ∧ '<' ∉ (kmlUrl r).data)
    (hiso : ∀ t, '<' ∉ (F.isoFmt t).data)
    (hloc : ∀ s, '<' ∉ (F.locStrFmt s).data)
    (hnum : ∀ q, '<' ∉ (F.numFmt q).data) :
    countSub ((l.map (fun r => (placemarkKML F r).data)).flatten ++
      kmlFooter.data) pmTag = l.length := by
  induction l with
  | nil =>
    simp only [List.map_nil, List.flatten_nil, List.nil_append, List.length_nil]
    decide
  | cons r rest ih =>
    simp only [List.map_cons, List.flatten_cons, List.append_assoc]
    rw [countSub_append pmTag (by decide) _ _ (placemarkKML_boundary F r),
      countSub_block F r (hfields r (by simp)).1 (hfields r (by simp)).2 hiso hloc hnum,
      ih (fun r' hr' => hfields r' (List.mem_cons_of_mem _ hr'))]
    simp only [List.length_cons]
    omega

/-- An archive handed to the save-file capability: name and named entries. -/
structure ZipFile where
  name : String
  entries : List (String × String)
deriving DecidableEq

/-- `downloadKMZ`: on an empty filtered list, no archive and the alert
notice (the `isDownloading` flag untouched); otherwise the archive with the
single entry `doc.kml` holding the KML document (and `isDownloading` reset
by the `finally`). -/
def downloadKMZOp (F : JsFormat) (filtered : List Feature)
    (startDate endDate : String) (isDownloading : Bool) :
    Option ZipFile × Option String × Bool :=
  if filtered.length = 0 then
    (none, some "No earthquakes to download for the selected filters.", isDownloading)
  else
    (some ⟨"ethiopia_earthquakes_" ++ startDate ++ "_to_" ++ endDate ++ ".kmz",
      [("doc.kml", generateKML F filtered)]⟩, none, false)

/-- C8 (counterexample): a record whose place text is itself the string
"<Placemark>" makes the generated KML contain three Placemark open tags for
a single record (the serializer interpolates place and url unescaped), so
the document does not contain exactly N Placemark elements. -/
theorem C8_counterexample :
    countSub (generateKML
      ⟨fun _ => "9", fun _ => "i", fun _ => "l", fun _ => "t", fun _ => none⟩
      [⟨some "x", some ⟨some [some 1, some 2, some 3]⟩,
        some ⟨some 1000, some 5, some "<Placemark>", none⟩⟩]).data pmTag ≠
    ([⟨some "x", some ⟨some [some 1, some 2, some 3]⟩,
      some ⟨some 1000, some 5, some "<Placemark>", none⟩⟩] : List Feature).length := by
  decide

/-- C8 (amended): provided the place and url texts and the formatter
outputs contain no `<` character (true of every real feed record and of the
real date/number formatters; the code does not escape markup), the KML for
N records contains exactly N Placemark open tags, one per record in input
order (the document is the header, the record blocks in order, the footer),
each block carries a coordinates element whose third value is the literal
0, and the KMZ archive for a nonempty list stores the KML document as its
single entry `doc.kml`. -/
theorem C8_kml_shape (F : JsFormat) (l : List Feature)
    (startDate endDate : String) (downloading : Bool)
    (hfields : ∀ r ∈ l, '<' ∉ (kmlPlace r).data ∧ '<' ∉ (kmlUrl r).data)
    (hiso : ∀ t, '<' ∉ (F.isoFmt t).data)
    (hloc : ∀ s, '<' ∉ (F.locStrFmt s).data)
    (hnum : ∀ q, '<' ∉ (F.numFmt q).data) :
    countSub (generateKML F l).data pmTag = l.length ∧
    (∀ r ∈ l, ("<coordinates>" ++ kmlCoord (coordAt r 0) F ++ "," ++
        kmlCoord (coordAt r 1) F ++ ",0</coordinates>").data <:+:
      (generateKML F l).data) ∧
    generateKML F l = kmlHeader ++ String.join (l.map (placemarkKML F)) ++ kmlFooter ∧
    (l ≠ [] → downloadKMZOp F l startDate endDate downloading =
      (some ⟨"ethiopia_earthquakes_" ++ startDate ++ "_to_" ++ endDate ++ ".kmz",
        [("doc.kml", generateKML F l)]⟩, none, false)) := by
  refine ⟨?_, ?_, ?_, ?_⟩
  · rw [generateKML_data,
      countSub_fixed_append kmlHeader _ (by decide),
      countSub_blocks_footer F l hfields hiso hloc hnum]
    have : countSub kmlHeader.data pmTag = 0 := by decide
    omega
  · intro r hr
    obtain ⟨s, t, rfl⟩ := List.append_of_mem hr
    have h2 : ("<coordinates>" ++ kmlCoord (coordAt r 0) F ++ "," ++
        kmlCoord (coordAt r 1) F ++ ",0</coordinates>").data <:+:
        (placemarkKML F r).data := by
      refine ⟨kmlP1.data ++ (kmlMag r).data ++ kmlP2.data ++ (kmlPlace r).data ++
        kmlP3.data ++ (kmlMag r).data ++ kmlP4.data ++ (kmlPlace r).data ++
        kmlP5.data ++ (F.locStrFmt (kmlTime F r)).data ++ kmlP6.data ++
        (kmlDepth r).data ++ kmlP7.data ++ (kmlMag r).data ++ kmlP8.data ++
        (kmlUrl r).data ++ kmlP9.data,
        kmlP13.data ++ (kmlMag r).data ++ kmlP14.data ++ (kmlDepth r).data ++
        kmlP15.data ++ (kmlTime F r).data ++ kmlP16.data, ?_⟩
      simp [placemarkKML, string_data_append, List.append_assoc, kmlP10, kmlP11, kmlP12]
    have h1 : (placemarkKML F r).data <:+: (generateKML F (s ++ r :: t)).data := by
      refine ⟨kmlHeader.data ++ (s.map (fun x => (placemarkKML F x).data)).flatten,
        (t.map (fun x => (placemarkKML F x).data)).flatten ++ kmlFooter.data, ?_⟩
      rw [generateKML_data]
      simp [List.map_append, List.append_assoc]
    exact h2.trans h1
  · apply String.ext
    rw [generateKML_data, string_data_append, string_data_append,
      String.data_join]
    simp [List.map_map, List.append_assoc, Function.comp_def]
  · intro hne
    rw [downloadKMZOp, if_neg (by simp [hne])]

theorem C8_kml_shape_witness :
    ((∀ r ∈ ([⟨some "w", some ⟨some [some 40, some 8, some 11]⟩,
        some ⟨some 3000, some 6, some "Semera, Ethiopia", some "u2"⟩⟩] : List Feature),
        '<' ∉ (kmlPlace r).data ∧ '<' ∉ (kmlUrl r).data) ∧
     (∀ t : ℤ, '<' ∉ (((⟨fun _ => "9", fun _ => "i", fun _ => "l", fun _ => "t",
        fun _ => none⟩ : JsFormat)).isoFmt t).data) ∧
     (∀ s : String, '<' ∉ (((⟨fun _ => "9", fun _ => "i", fun _ => "l", fun _ => "t",
        fun _ => none⟩ : JsFormat)).locStrFmt s).data) ∧
     (∀ q : ℚ, '<' ∉ (((⟨fun _ => "9", fun _ => "i", fun _ => "l", fun _ => "t",
        fun _ => none⟩ : JsFormat)).numFmt q).data)) ∧
    countSub (generateKML
      ⟨fun _ => "9", fun _ => "i", fun _ => "l", fun _ => "t", fun _ => none⟩
      [⟨some "w", some ⟨some [some 40, some 8, some 11]⟩,
        some ⟨some 3000, some 6, some "Semera, Ethiopia", some "u2"⟩⟩]).data pmTag =
      ([⟨some "w", some ⟨some [some 40, some 8, some 11]⟩,
        some ⟨some 3000, some 6, some "Semera, Ethiopia", some "u2"⟩⟩] : List Feature).length :=
  ⟨⟨by decide,
    fun _ => (by decide : '<' ∉ ("i" : String).data),
    fun _ => (by decide : '<' ∉ ("l" : String).data),
    fun _ => (by decide : '<' ∉ ("9" : String).data)⟩,
   (C8_kml_shape
     ⟨fun _ => "9", fun _ => "i", fun _ => "l", fun _ => "t", fun _ => none⟩
     [⟨some "w", some ⟨some [some 40, some 8, some 11]⟩,
       some ⟨some 3000, some 6, some "Semera, Ethiopia", some "u2"⟩⟩]
     "" "" false
     (by decide)
     (fun _ => (by decide : '<' ∉ ("i" : String).data))
     (fun _ => (by decide : '<' ∉ ("l" : String).data))
     (fun _ => (by decide : '<' ∉ ("9" : String).data))).1⟩

theorem C7_csv_shape_witness :
    ((∀ t : ℤ, '\n' ∉ ((⟨fun _ => "n", fun _ => "i", fun _ => "l", fun _ => "t",
        fun _ => none⟩ : JsFormat).locIntFmt t).data) ∧
     (∀ r ∈ filterRecords (⟨fun _ => "n", fun _ => "i", fun _ => "l", fun _ => "t",
          fun _ => none⟩ : JsFormat).dateParse "" "" 0
          [⟨some "e1", some ⟨some [some 38, some 9, some 10]⟩,
            some ⟨some 2000, some 5, some "Hawassa, Ethiopia", some "u"⟩⟩],
        '\n' ∉ (jsOr r.id "").data ∧ '\n' ∉ (csvPlace r).data ∧
          '\n' ∉ (jsOr (propsUrl r) "").data)) ∧
    (splitChar (csvContent
        (⟨fun _ => "n", fun _ => "i", fun _ => "l", fun _ => "t",
          fun _ => none⟩ : JsFormat)
        (filterRecords (⟨fun _ => "n", fun _ => "i", fun _ => "l", fun _ => "t",
            fun _ => none⟩ : JsFormat).dateParse "" "" 0
          [⟨some "e1", some ⟨some [some 38, some 9, some 10]⟩,
            some ⟨some 2000, some 5, some "Hawassa, Ethiopia", some "u"⟩⟩])).data
        '\n').length =
      (filterRecords (⟨fun _ => "n", fun _ => "i", fun _ => "l", fun _ => "t",
          fun _ => none⟩ : JsFormat).dateParse "" "" 0
        [⟨some "e1", some ⟨some [some 38, some 9, some 10]⟩,
          some ⟨some 2000, some 5, some "Hawassa, Ethiopia", some "u"⟩⟩]).length + 1 :=
  ⟨⟨fun _ => (by decide : '\n' ∉ ("t" : String).data), by decide⟩,
    (C7_csv_shape
      ⟨fun _ => "n", fun _ => "i", fun _ => "l", fun _ => "t", fun _ => none⟩
      "" "" 0
      [⟨some "e1", some ⟨some [some 38, some 9, some 10]⟩,
        some ⟨some 2000, some 5, some "Hawassa, Ethiopia", some "u"⟩⟩]
      (fun _ => (by decide : '\n' ∉ ("t" : String).data)) (by decide)).2.1⟩

/-! ## Empty-export refusal -/

/-- C10: with an empty filtered list both export operations produce no
file, leave the program state untouched (the KMZ downloading flag is
returned as it was), and issue the notice
"No earthquakes to download for the selected filters.". -/
theorem C10_empty_export_refusal (F : JsFormat) (startDate endDate : String)
    (downloading : Bool) :
    downloadCSVOp F [] startDate endDate =
      (none, some "No earthquakes to download for the selected filters.") ∧
    downloadKMZOp F [] startDate endDate downloading =
      (none, some "No earthquakes to download for the selected filters.",
        downloading) :=
  ⟨rfl, rfl⟩
